import Mathlib

/-!
Verification of the stock-exchange web-server (`src/homework6.cpp`).

The server keeps a process-wide `std::unordered_map<std::string, Stock>`
(`sm::stockMap`); each `Stock` record holds a `name`, an integer `balance`
and a per-record `std::mutex`.  The transaction functions `createS`, `buyS`,
`sellS`, `statusS` and `resetS` operate on that map, `process` dispatches on
the verb string, and `clientThread` parses one HTTP request line, calls
`process` and writes a fixed-shape HTTP response.

This file gives a shallow embedding of that code:

* the map is an association list `StockMap := List (String × Stock)`;
  `mapFind` embeds `stockMap.find`, `ensureKey` embeds the insert-if-absent
  effect of `stockMap[key]` (`operator[]` value-initialises a fresh record),
  and `entryModify` embeds an assignment `stockMap[key].field = ...`;
* each transaction function becomes a pure function returning the result
  string together with the new map (the C++ functions write the string into
  an out-parameter and mutate the global map);
* the mutex in each record is not data; instead `createLocks`, `buyLocks`,
  `sellLocks`, `statusLocks` and `resetLocks` record which mutexes each
  function acquires (the `Guard lock(...)` statements of the source), so the
  locking discipline itself can be stated;
* the request-line parsing of `clientThread` is embedded with an explicit
  token-stream model of `operator>>`, and the response formatting with an
  explicit function for the `boost::format` substitution into
  `HTTPRespHeader`.

Balances are mathematical integers: the spec describes them as plain signed
integers and the source applies `+=`/`-=` with no bounds check.
-/

/-- One stock record, from `Stock.h` as used by `homework6.cpp`:
a `name`, a signed integer `balance` (the mutex member is modelled
separately by the `...Locks` functions below). -/
structure Stock where
  name : String
  balance : Int
  deriving Repr, DecidableEq

/-- `sm::stockMap`, the unordered map from symbol to record, as an
association list. -/
abbrev StockMap := List (String × Stock)

/-- A value-initialised `Stock` (what `unordered_map::operator[]` creates
for an absent key): empty name, zero balance. -/
def defaultStock : Stock := ⟨"", 0⟩

/-- `sm::stockMap.find(s)`: the record stored under `s`, if any. -/
def mapFind : StockMap → String → Option Stock
  | [], _ => none
  | (k, v) :: rest, s => if k = s then some v else mapFind rest s

/-- The insertion effect of `sm::stockMap[k]`: if `k` is absent a
value-initialised record is inserted, otherwise the map is unchanged. -/
def ensureKey (m : StockMap) (k : String) : StockMap :=
  if (mapFind m k).isSome then m else m ++ [(k, defaultStock)]

/-- An assignment `sm::stockMap[k].field = ...` (or `+=`/`-=`):
`operator[]` first inserts `k` if absent, then the entry stored under `k`
is modified by `f`. -/
def entryModify (m : StockMap) (k : String) (f : Stock → Stock) : StockMap :=
  (ensureKey m k).map (fun p => if p.1 = k then (p.1, f p.2) else p)

/-- `createS` (homework6.cpp lines 61-71): if the stock exists, report so;
otherwise `stockMap[stock]` is created (by the `Guard` line's `operator[]`),
its `name` is set to `stock`, its `balance` to `amount`. -/
def createS (m : StockMap) (stock : String) (amount : Int) : String × StockMap :=
  if (mapFind m stock).isSome then
    ("Stock " ++ stock ++ " already exists", m)
  else
    let m1 := ensureKey m stock
    let m2 := entryModify m1 stock (fun v => { v with name := stock })
    let m3 := entryModify m2 stock (fun v => { v with balance := amount })
    ("Stock " ++ stock ++ " created with balance = " ++ toString amount, m3)

/-- `buyS` (homework6.cpp lines 79-87): absent stock reports "Stock not
found"; otherwise `stockMap[stock].balance -= amount`. -/
def buyS (m : StockMap) (stock : String) (amount : Int) : String × StockMap :=
  if (mapFind m stock).isNone then
    ("Stock not found", m)
  else
    let m1 := ensureKey m stock
    let m2 := entryModify m1 stock (fun v => { v with balance := v.balance - amount })
    ("Stock " ++ stock ++ "\x27s balance updated", m2)

/-- `sellS` (homework6.cpp lines 96-104): absent stock reports "Stock not
found"; otherwise `stockMap[stock].balance += amount`. -/
def sellS (m : StockMap) (stock : String) (amount : Int) : String × StockMap :=
  if (mapFind m stock).isNone then
    ("Stock not found", m)
  else
    let m1 := ensureKey m stock
    let m2 := entryModify m1 stock (fun v => { v with balance := v.balance + amount })
    ("Stock " ++ stock ++ "\x27s balance updated", m2)

/-- `statusS` (homework6.cpp lines 112-119): absent stock reports "Stock
not found"; otherwise the balance is read through `stockMap[stock]`
(an `operator[]` access, hence the `ensureKey`, a no-op on a present key)
and reported. -/
def statusS (m : StockMap) (stock : String) : String × StockMap :=
  if (mapFind m stock).isNone then
    ("Stock not found", m)
  else
    let m1 := ensureKey m stock
    ("Balance for stock " ++ stock ++ " = " ++
      toString ((mapFind m1 stock).getD defaultStock).balance, m1)

/-- `resetS` (homework6.cpp lines 121-124): `sm::stockMap.clear()` and the
fixed confirmation string. -/
def resetS (m : StockMap) : String × StockMap :=
  ("Stocks reset", [])

/-- `process` (homework6.cpp lines 133-149): dispatch on the verb string;
any unknown verb yields "Invalid request" and touches nothing. -/
def process (trans stock : String) (a : Int) (m : StockMap) : String × StockMap :=
  if trans = "create" then createS m stock a
  else if trans = "buy" then buyS m stock a
  else if trans = "sell" then sellS m stock a
  else if trans = "status" then statusS m stock
  else if trans = "reset" then resetS m
  else ("Invalid request", m)

/-- Identifiers for the mutexes the source could acquire: the per-record
mutex embedded in a `Stock` (keyed by symbol), and a hypothetical
ledger-structure-wide mutex (no such mutex exists in the source; the
constructor exists so its absence can be stated). -/
inductive LockId where
  | recordGuard (key : String)
  | ledgerGuard
  deriving Repr, DecidableEq

/-- Mutexes acquired by `createS`: one `Guard lock(sm::stockMap[stock].mutex)`
in the not-yet-present branch (line 65), none otherwise. -/
def createLocks (m : StockMap) (stock : String) : List LockId :=
  if (mapFind m stock).isSome then [] else [LockId.recordGuard stock]

/-- Mutexes acquired by `buyS`: one `Guard lock(sm::stockMap[stock].mutex)`
in the present branch (line 83), none otherwise. -/
def buyLocks (m : StockMap) (stock : String) : List LockId :=
  if (mapFind m stock).isNone then [] else [LockId.recordGuard stock]

/-- Mutexes acquired by `sellS`: one `Guard lock(sm::stockMap[stock].mutex)`
in the present branch (line 100), none otherwise. -/
def sellLocks (m : StockMap) (stock : String) : List LockId :=
  if (mapFind m stock).isNone then [] else [LockId.recordGuard stock]

/-- Mutexes acquired by `statusS` (lines 112-119): the function contains no
`Guard` statement at all — the balance at line 117 is read with no mutex
held, in either branch. -/
def statusLocks (m : StockMap) (stock : String) : List LockId := []

/-- Mutexes acquired by `resetS` (lines 121-124): the function contains no
`Guard` statement at all — `sm::stockMap.clear()` runs with no mutex held. -/
def resetLocks : List LockId := []

/-! ### Connection handler (`clientThread`, homework6.cpp lines 164-184)

`operator>>` on an `istringstream` skips `isspace` characters and reads a
maximal run of non-whitespace characters, so a stream is modelled as the
list of its whitespace-delimited tokens; a failed extraction leaves a
string variable unchanged (its prior value). -/

/-- The characters `isspace` accepts (C locale): space, tab, newline,
vertical tab, form feed, carriage return. -/
def isWsC (c : Char) : Bool :=
  c == ' ' || c == '\t' || c == '\n' || c == '\x0b' || c == '\x0c' || c == '\r'

/-- Split a character list into maximal runs of non-whitespace characters
(`acc` holds the current run, reversed). -/
def splitWsAux : List Char → List Char → List (List Char)
  | [], [] => []
  | [], acc => [acc.reverse]
  | c :: cs, acc =>
    if isWsC c then
      (if acc.isEmpty then splitWsAux cs [] else acc.reverse :: splitWsAux cs [])
    else splitWsAux cs (c :: acc)

/-- The whitespace-delimited tokens of a string, in order. -/
def wsTokens (s : String) : List String :=
  (splitWsAux s.data []).map List.asString

/-- One `stream >> stringVar` step: take the next token if there is one,
otherwise the extraction fails and the variable keeps its prior value. -/
def extractStr (prior : String) : List String → String × List String
  | [] => (prior, [])
  | t :: ts => (t, ts)

/-- The value of one decimal digit character, if it is one. -/
def digitVal (c : Char) : Option Nat :=
  if '0' ≤ c ∧ c ≤ '9' then some (c.toNat - '0'.toNat) else none

/-- Accumulate a decimal numeral left to right; fails on a non-digit. -/
def natOfDigitsAux : List Char → Nat → Option Nat
  | [], acc => some acc
  | c :: cs, acc =>
    match digitVal c with
    | some d => natOfDigitsAux cs (acc * 10 + d)
    | none => none

/-- Read a token as an unsigned decimal numeral (`stream >> unsignedVar`
on a plain digit token); `none` marks a failed extraction. -/
def parseUIntTok (t : String) : Option Nat :=
  if t.data.isEmpty then none else natOfDigitsAux t.data 0

/-- One `stream >> unsignedVar` step. -/
def extractUInt : List String → Option Nat × List String
  | [] => (none, [])
  | t :: ts => (parseUIntTok t, ts)

/-- Line 170, `std::istringstream(line) >> url >> url`: two extractions
into the same variable (initially empty), leaving the second
whitespace-delimited token of the request line (the request target). -/
def parseRequestLine (line : String) : String :=
  let ts := wsTokens line
  let p1 := extractStr "" ts
  (extractStr p1.1 p1.2).1

/-- Lines 172-173, `std::replace(url, '&', ' ')` then
`std::replace(url, '=', ' ')`: every `&` and `=` becomes a space. -/
def normalizeUrl (u : String) : String :=
  (u.data.map (fun c => if c = '&' then ' ' else if c = '=' then ' ' else c)).asString

/-- Line 174, `std::istringstream(url) >> x >> trans >> x >> stock >> x >> a`
applied to the normalized decoded target: six positional extractions; the
result is the `(trans, stock, a)` triple handed to `process` (with `a` as
`none` when the sixth extraction fails). -/
def parseTarget (u : String) : String × String × Option Nat :=
  let ts := wsTokens (normalizeUrl u)
  let p1 := extractStr "" ts
  let p2 := extractStr "" p1.2
  let p3 := extractStr p1.1 p2.2
  let p4 := extractStr "" p3.2
  let p5 := extractStr p3.1 p4.2
  let p6 := extractUInt p5.2
  (p2.1, p4.1, p6.1)

/-- The whole request-line parse of `clientThread` (lines 167-174),
parameterised by the external `url_decode` collaborator: the second token
of the request line is decoded, normalized and positionally tokenized. -/
def clientParse (decode : String → String) (line : String) :
    String × String × Option Nat :=
  parseTarget (decode (parseRequestLine line))

/-! ### Response formatting (lines 37-41 and 177-183) -/

/-- The constant `HTTPRespHeader` (homework6.cpp lines 37-41), with the
`boost::format` placeholder `%1%` still in place. -/
def HTTPRespHeader : String :=
  "HTTP/1.1 200 OK\r\nServer: SimpleServer\r\nContent-Length: %1%\r\nConnection: Close\r\nContent-Type: text/html\r\n\r\n"

/-- `boost::str(boost::format(HTTPRespHeader) % arg)`: the single `%1%`
placeholder of the header replaced by `arg`. -/
def HTTPRespHeaderFmt (arg : String) : String :=
  "HTTP/1.1 200 OK\r\nServer: SimpleServer\r\nContent-Length: " ++ arg ++
    "\r\nConnection: Close\r\nContent-Type: text/html\r\n\r\n"

/-- Lines 180-183: the bytes written to the client socket, `httpForm`
(the header with `data.size()`, the byte length of the result string,
substituted) followed by `data` itself. -/
def clientResponse (data : String) : String :=
  HTTPRespHeaderFmt (toString data.utf8ByteSize) ++ data

/-! ### Reachable ledger states -/

/-- Run one parsed request through `process`, keeping the resulting map
(the global `sm::stockMap` after the call). -/
def stepReq (m : StockMap) (r : String × String × Int) : StockMap :=
  (process r.1 r.2.1 r.2.2 m).2

/-- The ledger after a sequence of requests, starting from the empty map
the process begins with. -/
def runReqs (rs : List (String × String × Int)) : StockMap :=
  rs.foldl stepReq []

/-- The key set of the ledger (with multiplicity and order, which the
claims never depend on). -/
def keysOf (m : StockMap) : List String :=
  m.map Prod.fst

/-- Every record is stored under its own name. -/
def ledgerInv (m : StockMap) : Prop :=
  ∀ p ∈ m, (Prod.snd p).name = Prod.fst p

/-! ### Helper lemmas about the map primitives -/

theorem mapFind_cons (a : String) (b : Stock) (rest : StockMap) (s : String) :
    mapFind ((a, b) :: rest) s = if a = s then some b else mapFind rest s := rfl

theorem ensureKey_of_isSome {m : StockMap} {k : String}
    (h : (mapFind m k).isSome) : ensureKey m k = m := by
  simp [ensureKey, h]

theorem mapFind_append_self (m : StockMap) (k : String) (d : Stock) :
    (mapFind (m ++ [(k, d)]) k).isSome := by
  induction m with
  | nil => simp [mapFind]
  | cons p rest ih =>
    obtain ⟨a, b⟩ := p
    by_cases h : a = k <;> simp [mapFind_cons, h, ih]

theorem mapFind_ensureKey_isSome (m : StockMap) (k : String) :
    (mapFind (ensureKey m k) k).isSome := by
  unfold ensureKey
  split
  · assumption
  · exact mapFind_append_self m k defaultStock

theorem mapFind_map_modify (m : StockMap) (k : String) (f : Stock → Stock) :
    mapFind (m.map (fun p => if p.1 = k then (p.1, f p.2) else p)) k =
      Option.map f (mapFind m k) := by
  induction m with
  | nil => rfl
  | cons p rest ih =>
    obtain ⟨a, b⟩ := p
    by_cases h : a = k <;> simp [mapFind_cons, h, ih]

theorem mapFind_entryModify (m : StockMap) (k : String) (f : Stock → Stock) :
    mapFind (entryModify m k f) k = Option.map f (mapFind (ensureKey m k) k) := by
  unfold entryModify
  exact mapFind_map_modify _ _ _

theorem mapFind_entryModify_of_some {m : StockMap} {k : String} {r : Stock}
    (f : Stock → Stock) (h : mapFind m k = some r) :
    mapFind (entryModify m k f) k = some (f r) := by
  rw [mapFind_entryModify, ensureKey_of_isSome (by simp [h]), h]
  rfl

theorem entryModify_isSome (m : StockMap) (k : String) (f : Stock → Stock) :
    (mapFind (entryModify m k f) k).isSome := by
  rw [mapFind_entryModify]
  have h := mapFind_ensureKey_isSome m k
  cases hv : mapFind (ensureKey m k) k with
  | none => rw [hv] at h; simp at h
  | some v => rfl

theorem keysOf_entryModify (m : StockMap) (k : String) (f : Stock → Stock) :
    keysOf (entryModify m k f) = keysOf (ensureKey m k) := by
  unfold entryModify keysOf
  rw [List.map_map]
  apply List.map_congr_left
  intro p _
  by_cases h : p.1 = k <;> simp [h]

theorem keysOf_ensureKey_of_isSome {m : StockMap} {k : String}
    (h : (mapFind m k).isSome) : keysOf (ensureKey m k) = keysOf m := by
  rw [ensureKey_of_isSome h]

theorem keysOf_ensureKey_of_none {m : StockMap} {k : String}
    (h : mapFind m k = none) : keysOf (ensureKey m k) = keysOf m ++ [k] := by
  simp [ensureKey, keysOf, h]

theorem isSome_of_not_isNone {m : StockMap} {k : String}
    (h : ¬(mapFind m k).isNone = true) : (mapFind m k).isSome := by
  cases hv : mapFind m k with
  | none => simp [hv] at h
  | some v => simp

/-! ### Preservation lemmas, operation by operation -/

theorem ledgerInv_map_keepName {m : StockMap} (h : ledgerInv m) (k : String)
    (f : Stock → Stock) (hf : ∀ v, (f v).name = v.name) :
    ledgerInv (m.map (fun p => if p.1 = k then (p.1, f p.2) else p)) := by
  intro p hp
  rw [List.mem_map] at hp
  obtain ⟨q, hq, rfl⟩ := hp
  by_cases hqk : q.1 = k
  · simp [hqk, hf]
    rw [← hqk]
    exact h q hq
  · simp [hqk]
    exact h q hq

theorem ledgerInv_map_setName {m : StockMap} (h : ledgerInv m) (s : String) :
    ledgerInv ((m ++ [(s, defaultStock)]).map
      (fun p => if p.1 = s then (p.1, { p.2 with name := s }) else p)) := by
  intro p hp
  rw [List.mem_map] at hp
  obtain ⟨q, hq, rfl⟩ := hp
  by_cases hqs : q.1 = s
  · simp [hqs]
  · simp [hqs]
    rw [List.mem_append] at hq
    rcases hq with hq | hq
    · exact h q hq
    · simp at hq
      exact absurd (by rw [hq]) hqs

theorem ledgerInv_entryModify_keepName {m : StockMap} {k : String}
    (h : ledgerInv m) (hsome : (mapFind m k).isSome) (f : Stock → Stock)
    (hf : ∀ v, (f v).name = v.name) : ledgerInv (entryModify m k f) := by
  unfold entryModify
  rw [ensureKey_of_isSome hsome]
  exact ledgerInv_map_keepName h k f hf

theorem ledgerInv_entryModify_setName (m : StockMap) (s : String)
    (h : ledgerInv m) :
    ledgerInv (entryModify (m ++ [(s, defaultStock)]) s
      (fun v => { v with name := s })) := by
  unfold entryModify
  rw [ensureKey_of_isSome (mapFind_append_self m s defaultStock)]
  exact ledgerInv_map_setName h s

theorem ledgerInv_createS (m : StockMap) (s : String) (n : Int)
    (h : ledgerInv m) : ledgerInv (createS m s n).2 := by
  unfold createS
  split
  · exact h
  · rename_i hns
    have hnone : mapFind m s = none := by
      cases hv : mapFind m s with
      | none => rfl
      | some v => simp [hv] at hns
    show ledgerInv (entryModify (entryModify (ensureKey m s) s
      (fun v => { v with name := s })) s (fun v => { v with balance := n }))
    have h1 : ensureKey m s = m ++ [(s, defaultStock)] := by
      simp [ensureKey, hnone]
    rw [h1]
    exact ledgerInv_entryModify_keepName (ledgerInv_entryModify_setName m s h)
      (entryModify_isSome _ s _) (fun v => { v with balance := n }) (fun v => rfl)

theorem ledgerInv_buyS (m : StockMap) (s : String) (a : Int)
    (h : ledgerInv m) : ledgerInv (buyS m s a).2 := by
  unfold buyS
  split
  · exact h
  · rename_i hns
    show ledgerInv (entryModify (ensureKey m s) s
      (fun v => { v with balance := v.balance - a }))
    rw [ensureKey_of_isSome (isSome_of_not_isNone hns)]
    exact ledgerInv_entryModify_keepName h (isSome_of_not_isNone hns)
      (fun v => { v with balance := v.balance - a }) (fun v => rfl)

theorem ledgerInv_sellS (m : StockMap) (s : String) (a : Int)
    (h : ledgerInv m) : ledgerInv (sellS m s a).2 := by
  unfold sellS
  split
  · exact h
  · rename_i hns
    show ledgerInv (entryModify (ensureKey m s) s
      (fun v => { v with balance := v.balance + a }))
    rw [ensureKey_of_isSome (isSome_of_not_isNone hns)]
    exact ledgerInv_entryModify_keepName h (isSome_of_not_isNone hns)
      (fun v => { v with balance := v.balance + a }) (fun v => rfl)

theorem ledgerInv_statusS (m : StockMap) (s : String)
    (h : ledgerInv m) : ledgerInv (statusS m s).2 := by
  unfold statusS
  split
  · exact h
  · rename_i hns
    show ledgerInv (ensureKey m s)
    rw [ensureKey_of_isSome (isSome_of_not_isNone hns)]
    exact h

theorem ledgerInv_process (t s : String) (a : Int) (m : StockMap)
    (h : ledgerInv m) : ledgerInv (process t s a m).2 := by
  unfold process
  split_ifs
  · exact ledgerInv_createS m s a h
  · exact ledgerInv_buyS m s a h
  · exact ledgerInv_sellS m s a h
  · exact ledgerInv_statusS m s h
  · intro p hp; simp [resetS] at hp
  · exact h

theorem ledgerInv_runReqs (rs : List (String × String × Int)) :
    ledgerInv (runReqs rs) := by
  unfold runReqs
  have gen : ∀ (l : List (String × String × Int)) (m : StockMap),
      ledgerInv m → ledgerInv (l.foldl stepReq m) := by
    intro l
    induction l with
    | nil => intro m h; exact h
    | cons r rest ih =>
      intro m h
      simp only [List.foldl]
      exact ih _ (ledgerInv_process r.1 r.2.1 r.2.2 m h)
  exact gen rs [] (by intro p hp; simp at hp)

theorem keysOf_buyS (m : StockMap) (s : String) (a : Int) :
    keysOf (buyS m s a).2 = keysOf m := by
  unfold buyS
  split
  · rfl
  · rename_i hns
    show keysOf (entryModify (ensureKey m s) s
      (fun v => { v with balance := v.balance - a })) = keysOf m
    rw [keysOf_entryModify,
      ensureKey_of_isSome (mapFind_ensureKey_isSome m s),
      ensureKey_of_isSome (isSome_of_not_isNone hns)]

theorem keysOf_sellS (m : StockMap) (s : String) (a : Int) :
    keysOf (sellS m s a).2 = keysOf m := by
  unfold sellS
  split
  · rfl
  · rename_i hns
    show keysOf (entryModify (ensureKey m s) s
      (fun v => { v with balance := v.balance + a })) = keysOf m
    rw [keysOf_entryModify,
      ensureKey_of_isSome (mapFind_ensureKey_isSome m s),
      ensureKey_of_isSome (isSome_of_not_isNone hns)]

theorem keysOf_statusS (m : StockMap) (s : String) :
    keysOf (statusS m s).2 = keysOf m := by
  unfold statusS
  split
  · rfl
  · rename_i hns
    show keysOf (ensureKey m s) = keysOf m
    rw [ensureKey_of_isSome (isSome_of_not_isNone hns)]

theorem mapFind_append_right {m : StockMap} {k : String}
    (h : mapFind m k = none) (l : StockMap) : mapFind (m ++ l) k = mapFind l k := by
  induction m with
  | nil => rfl
  | cons p rest ih =>
    obtain ⟨a, b⟩ := p
    rw [mapFind_cons] at h
    by_cases hak : a = k
    · rw [if_pos hak] at h
      exact absurd h (by simp)
    · rw [if_neg hak] at h
      simp only [List.cons_append, mapFind_cons, if_neg hak]
      exact ih h

theorem keysOf_createS_superset (m : StockMap) (s : String) (n : Int) :
    keysOf m ⊆ keysOf (createS m s n).2 := by
  unfold createS
  split
  · exact fun x hx => hx
  · rename_i hns
    have hnone : mapFind m s = none := by
      cases hv : mapFind m s with
      | none => rfl
      | some v => simp [hv] at hns
    show keysOf m ⊆ keysOf (entryModify (entryModify (ensureKey m s) s
      (fun v => { v with name := s })) s (fun v => { v with balance := n }))
    rw [keysOf_entryModify, ensureKey_of_isSome (entryModify_isSome _ s _),
      keysOf_entryModify, ensureKey_of_isSome (mapFind_ensureKey_isSome m s),
      keysOf_ensureKey_of_none hnone]
    exact List.subset_append_left _ _

/-! ### The claims -/

/-- Claim C1: for every symbol `s` present in the ledger (with record `r`)
and every integer amount `n`, `buyS` decreases the record's balance by
exactly `n` and returns "Stock s's balance updated", and `sellS` increases
it by exactly `n` with the same message; the new balance is the unbounded
integer `r.balance - n` resp. `r.balance + n`, so no lower or upper bound
is enforced and the balance may become negative. -/
theorem buy_sell_adjust_exact (m : StockMap) (s : String) (n : Int) (r : Stock)
    (h : mapFind m s = some r) :
    (buyS m s n).1 = "Stock " ++ s ++ "\x27s balance updated" ∧
    mapFind (buyS m s n).2 s = some { r with balance := r.balance - n } ∧
    (sellS m s n).1 = "Stock " ++ s ++ "\x27s balance updated" ∧
    mapFind (sellS m s n).2 s = some { r with balance := r.balance + n } := by
  have hsome : (mapFind m s).isSome := by simp [h]
  have hb2 : (buyS m s n).2 =
      entryModify m s (fun v => { v with balance := v.balance - n }) := by
    simp [buyS, h, ensureKey_of_isSome hsome]
  have hs2 : (sellS m s n).2 =
      entryModify m s (fun v => { v with balance := v.balance + n }) := by
    simp [sellS, h, ensureKey_of_isSome hsome]
  refine ⟨by simp [buyS, h], ?_, by simp [sellS, h], ?_⟩
  · rw [hb2]
    exact mapFind_entryModify_of_some _ h
  · rw [hs2]
    exact mapFind_entryModify_of_some _ h

theorem buy_sell_adjust_exact_w :
    (buyS [("ABC", ⟨"ABC", 5⟩)] "ABC" 7).1 = "Stock " ++ "ABC" ++ "\x27s balance updated" ∧
    mapFind (buyS [("ABC", ⟨"ABC", 5⟩)] "ABC" 7).2 "ABC" =
      some { (⟨"ABC", 5⟩ : Stock) with balance := (5 : Int) - 7 } ∧
    (sellS [("ABC", ⟨"ABC", 5⟩)] "ABC" 7).1 = "Stock " ++ "ABC" ++ "\x27s balance updated" ∧
    mapFind (sellS [("ABC", ⟨"ABC", 5⟩)] "ABC" 7).2 "ABC" =
      some { (⟨"ABC", 5⟩ : Stock) with balance := (5 : Int) + 7 } :=
  buy_sell_adjust_exact [("ABC", ⟨"ABC", 5⟩)] "ABC" 7 ⟨"ABC", 5⟩ (by decide)

/-- Claim C2: for every symbol `s` not present in the ledger and every
integer `n`, `createS` inserts a record for `s` with balance `n` and
returns "Stock s created with balance = n", and a subsequent `statusS`
reports "Balance for stock s = n". -/
theorem create_then_status (m : StockMap) (s : String) (n : Int)
    (h : mapFind m s = none) :
    (createS m s n).1 = "Stock " ++ s ++ " created with balance = " ++ toString n ∧
    mapFind (createS m s n).2 s = some ⟨s, n⟩ ∧
    (statusS (createS m s n).2 s).1 =
      "Balance for stock " ++ s ++ " = " ++ toString n := by
  have h1 : (createS m s n).1 =
      "Stock " ++ s ++ " created with balance = " ++ toString n := by
    simp [createS, h]
  have hc2 : (createS m s n).2 =
      entryModify (entryModify (ensureKey m s) s (fun v => { v with name := s })) s
        (fun v => { v with balance := n }) := by
    simp [createS, h]
  have hfind : mapFind (createS m s n).2 s = some ⟨s, n⟩ := by
    rw [hc2, mapFind_entryModify, ensureKey_of_isSome (entryModify_isSome _ s _),
      mapFind_entryModify, ensureKey_of_isSome (mapFind_ensureKey_isSome m s)]
    have he : mapFind (ensureKey m s) s = some defaultStock := by
      unfold ensureKey
      rw [if_neg (by simp [h]), mapFind_append_right h, mapFind_cons, if_pos rfl]
    rw [he]
    rfl
  have hsome2 : (mapFind (createS m s n).2 s).isSome := by simp [hfind]
  refine ⟨h1, hfind, ?_⟩
  simp [statusS, hfind, ensureKey_of_isSome hsome2]

theorem create_then_status_w :
    (createS [] "ABC" 100).1 =
      "Stock " ++ "ABC" ++ " created with balance = " ++ toString (100 : Int) ∧
    mapFind (createS [] "ABC" 100).2 "ABC" = some ⟨"ABC", 100⟩ ∧
    (statusS (createS [] "ABC" 100).2 "ABC").1 =
      "Balance for stock " ++ "ABC" ++ " = " ++ toString (100 : Int) :=
  create_then_status [] "ABC" 100 rfl

/-- Claim C3: the "error" results are atomic no-ops: for a symbol already
present, `createS` returns "Stock s already exists" and returns the ledger
unchanged; for a symbol absent from the ledger, `buyS`, `sellS` and
`statusS` each return "Stock not found" with the ledger unchanged. -/
theorem error_results_noop (m : StockMap) (s : String) (n : Int) :
    ((mapFind m s).isSome →
      createS m s n = ("Stock " ++ s ++ " already exists", m)) ∧
    (mapFind m s = none →
      buyS m s n = ("Stock not found", m) ∧
      sellS m s n = ("Stock not found", m) ∧
      statusS m s = ("Stock not found", m)) := by
  constructor
  · intro h
    simp [createS, h]
  · intro h
    refine ⟨?_, ?_, ?_⟩ <;> simp [buyS, sellS, statusS, h]

theorem error_results_noop_w :
    createS [("ABC", ⟨"ABC", 5⟩)] "ABC" 9 =
      ("Stock " ++ "ABC" ++ " already exists", [("ABC", ⟨"ABC", 5⟩)]) ∧
    (buyS [] "XYZ" 3 = ("Stock not found", []) ∧
      sellS [] "XYZ" 3 = ("Stock not found", []) ∧
      statusS [] "XYZ" = ("Stock not found", [])) :=
  ⟨(error_results_noop [("ABC", ⟨"ABC", 5⟩)] "ABC" 9).1 (by decide),
   (error_results_noop [] "XYZ" 3).2 rfl⟩

/-- Claim C4: `resetS` always succeeds, empties the ledger and returns the
fixed string "Stocks reset"; afterwards `statusS` (and likewise `buyS` and
`sellS`) answers "Stock not found" for every symbol. -/
theorem reset_clears (m : StockMap) (s : String) (n : Int) :
    resetS m = ("Stocks reset", []) ∧
    (statusS (resetS m).2 s).1 = "Stock not found" ∧
    (buyS (resetS m).2 s n).1 = "Stock not found" ∧
    (sellS (resetS m).2 s n).1 = "Stock not found" :=
  ⟨rfl, rfl, rfl, rfl⟩

/-- Claim C5 (evaluation of the code at the failing configuration): the
source's `resetS` clears the whole ledger acquiring no mutex whatsoever
(in particular not the hypothetical `LockId.ledgerGuard`), and `statusS`
reads a record's balance acquiring no mutex, while the writers `buyS` and
`sellS` do take the per-record guard — so a concurrent reset is not
mutually exclusive with other ledger operations and a status read is not
guarded against concurrent writers. -/
theorem reset_status_unguarded :
    resetLocks = [] ∧
    (∀ (m : StockMap) (s : String), statusLocks m s = []) ∧
    buyLocks [("ABC", ⟨"ABC", 5⟩)] "ABC" = [LockId.recordGuard "ABC"] ∧
    sellLocks [("ABC", ⟨"ABC", 5⟩)] "ABC" = [LockId.recordGuard "ABC"] :=
  ⟨rfl, fun _ _ => rfl, by decide, by decide⟩

/-- Claim C6: for every verb string not among create/buy/sell/status/reset
(case variants and the empty string included), `process` returns the fixed
string "Invalid request" and leaves the ledger unchanged. -/
theorem invalid_verb_noop (t s : String) (a : Int) (m : StockMap)
    (h : t ∉ (["create", "buy", "sell", "status", "reset"] : List String)) :
    process t s a m = ("Invalid request", m) := by
  simp only [List.mem_cons, List.not_mem_nil, or_false, not_or] at h
  obtain ⟨h1, h2, h3, h4, h5⟩ := h
  simp [process, h1, h2, h3, h4, h5]

theorem invalid_verb_noop_w :
    process "Create" "ABC" 1 [] = ("Invalid request", []) :=
  invalid_verb_noop "Create" "ABC" 1 [] (by decide)

/-- Claim C7: for every result string, the written response starts with the
status line "HTTP/1.1 200 OK" (that status line is produced for every
result, malformed requests included, since every result goes through the
same formatter), carries a Content-Length header whose value is the exact
byte length of the result string, carries a Connection: Close header, and
ends with the result string as the body with nothing after it. -/
theorem response_shape (data : String) :
    (∃ rest, clientResponse data = "HTTP/1.1 200 OK\r\n" ++ rest) ∧
    (∃ u v, clientResponse data =
      u ++ ("Content-Length: " ++ toString data.utf8ByteSize ++ "\r\n") ++ v) ∧
    (∃ u v, clientResponse data = u ++ "Connection: Close\r\n" ++ v) ∧
    (∃ hd, clientResponse data = hd ++ "\r\n\r\n" ++ data) := by
  have key : clientResponse data =
      ("HTTP/1.1 200 OK\r\nServer: SimpleServer\r\nContent-Length: " ++
        toString data.utf8ByteSize ++
        "\r\nConnection: Close\r\nContent-Type: text/html\r\n\r\n") ++ data := rfl
  refine ⟨⟨"Server: SimpleServer\r\nContent-Length: " ++ toString data.utf8ByteSize ++
      "\r\nConnection: Close\r\nContent-Type: text/html\r\n\r\n" ++ data, ?_⟩,
    ⟨"HTTP/1.1 200 OK\r\nServer: SimpleServer\r\n",
      "Connection: Close\r\nContent-Type: text/html\r\n\r\n" ++ data, ?_⟩,
    ⟨"HTTP/1.1 200 OK\r\nServer: SimpleServer\r\nContent-Length: " ++
      toString data.utf8ByteSize ++ "\r\n",
      "Content-Type: text/html\r\n\r\n" ++ data, ?_⟩,
    ⟨"HTTP/1.1 200 OK\r\nServer: SimpleServer\r\nContent-Length: " ++
      toString data.utf8ByteSize ++ "\r\nConnection: Close\r\nContent-Type: text/html",
      ?_⟩⟩
  · rw [key, show ("HTTP/1.1 200 OK\r\nServer: SimpleServer\r\nContent-Length: " : String) =
      "HTTP/1.1 200 OK\r\n" ++ "Server: SimpleServer\r\nContent-Length: " by decide]
    simp only [String.append_assoc]
  · rw [key,
      show ("HTTP/1.1 200 OK\r\nServer: SimpleServer\r\nContent-Length: " : String) =
        "HTTP/1.1 200 OK\r\nServer: SimpleServer\r\n" ++ "Content-Length: " by decide,
      show ("\r\nConnection: Close\r\nContent-Type: text/html\r\n\r\n" : String) =
        "\r\n" ++ "Connection: Close\r\nContent-Type: text/html\r\n\r\n" by decide]
    simp only [String.append_assoc]
  · rw [key,
      show ("\r\nConnection: Close\r\nContent-Type: text/html\r\n\r\n" : String) =
        "\r\n" ++ "Connection: Close\r\n" ++ "Content-Type: text/html\r\n\r\n" by decide]
    simp only [String.append_assoc]
  · rw [key,
      show ("\r\nConnection: Close\r\nContent-Type: text/html\r\n\r\n" : String) =
        "\r\nConnection: Close\r\nContent-Type: text/html" ++ "\r\n\r\n" by decide]
    simp only [String.append_assoc]

/-- Claim C8: the connection handler takes the second whitespace-delimited
token of the request line as the target; and on the percent-decoded target
with every ampersand and equals sign replaced by whitespace, the verb,
symbol and amount handed to the dispatcher are exactly the
whitespace-delimited tokens at positions 2, 4 and 6 (purely positional,
never matched by field name). -/
theorem positional_parse :
    (∀ (line t0 t1 : String) (rest : List String),
      wsTokens line = t0 :: t1 :: rest → parseRequestLine line = t1) ∧
    (∀ (u y0 y1 y2 y3 y4 y5 : String) (rest : List String),
      wsTokens (normalizeUrl u) = y0 :: y1 :: y2 :: y3 :: y4 :: y5 :: rest →
      parseTarget u = (y1, y3, parseUIntTok y5)) := by
  constructor
  · intro line t0 t1 rest h
    unfold parseRequestLine
    rw [h]
    rfl
  · intro u y0 y1 y2 y3 y4 y5 rest h
    unfold parseTarget
    rw [h]
    rfl

theorem positional_parse_w :
    parseRequestLine "GET /trans?trans=buy&stock=ABC&a=30 HTTP/1.1" =
      "/trans?trans=buy&stock=ABC&a=30" ∧
    parseTarget "/trans?trans=buy&stock=ABC&a=30" = ("buy", "ABC", parseUIntTok "30") :=
  ⟨positional_parse.1 "GET /trans?trans=buy&stock=ABC&a=30 HTTP/1.1"
      "GET" "/trans?trans=buy&stock=ABC&a=30" ["HTTP/1.1"] (by decide),
   positional_parse.2 "/trans?trans=buy&stock=ABC&a=30"
      "/trans?trans" "buy" "stock" "ABC" "a" "30" [] (by decide)⟩

/-- Claim C9: in every ledger state reachable from the empty ledger by any
sequence of dispatched requests, every record stored under key `s` has its
name field equal to `s`; moreover only the create verb can add a key
(every other verb leaves the key set no bigger), only the reset verb can
remove keys (every other verb leaves the key set no smaller), and buy,
sell and status preserve the key set exactly. -/
theorem key_name_invariant :
    (∀ rs : List (String × String × Int), ledgerInv (runReqs rs)) ∧
    (∀ (t s : String) (a : Int) (m : StockMap),
      t ≠ "create" → keysOf (process t s a m).2 ⊆ keysOf m) ∧
    (∀ (t s : String) (a : Int) (m : StockMap),
      t ≠ "reset" → keysOf m ⊆ keysOf (process t s a m).2) ∧
    (∀ (s : String) (a : Int) (m : StockMap),
      keysOf (buyS m s a).2 = keysOf m ∧
      keysOf (sellS m s a).2 = keysOf m ∧
      keysOf (statusS m s).2 = keysOf m) := by
  refine ⟨ledgerInv_runReqs, ?_, ?_,
    fun s a m => ⟨keysOf_buyS m s a, keysOf_sellS m s a, keysOf_statusS m s⟩⟩
  · intro t s a m ht
    unfold process
    split_ifs with hcr
    · exact absurd hcr ht
    · rw [keysOf_buyS]
      exact fun x hx => hx
    · rw [keysOf_sellS]
      exact fun x hx => hx
    · rw [keysOf_statusS]
      exact fun x hx => hx
    · intro x hx
      simp [resetS, keysOf] at hx
    · exact fun x hx => hx
  · intro t s a m ht
    unfold process
    split_ifs
    · exact keysOf_createS_superset m s a
    · rw [keysOf_buyS]
      exact fun x hx => hx
    · rw [keysOf_sellS]
      exact fun x hx => hx
    · rw [keysOf_statusS]
      exact fun x hx => hx
    · exact fun x hx => hx

theorem key_name_invariant_w :
    ledgerInv (runReqs [("create", "ABC", 100), ("buy", "ABC", 30)]) ∧
    keysOf (process "buy" "ABC" 30 [("ABC", ⟨"ABC", 100⟩)]).2 ⊆
      keysOf [("ABC", ⟨"ABC", 100⟩)] ∧
    keysOf [("ABC", ⟨"ABC", 100⟩)] ⊆
      keysOf (process "status" "ABC" 0 [("ABC", ⟨"ABC", 100⟩)]).2 :=
  ⟨key_name_invariant.1 [("create", "ABC", 100), ("buy", "ABC", 30)],
   key_name_invariant.2.1 "buy" "ABC" 30 [("ABC", ⟨"ABC", 100⟩)] (by decide),
   key_name_invariant.2.2.1 "status" "ABC" 0 [("ABC", ⟨"ABC", 100⟩)] (by decide)⟩

/-- Claim C10: dispatching the status verb is independent of the amount
argument, and dispatching the reset verb is independent of both the symbol
and the amount: on the same ledger state the result string and the final
ledger state are identical. -/
theorem status_reset_ignore_args :
    (∀ (m : StockMap) (s : String) (a b : Int),
      process "status" s a m = process "status" s b m) ∧
    (∀ (m : StockMap) (s t : String) (a b : Int),
      process "reset" s a m = process "reset" t b m) :=
  ⟨fun _ _ _ _ => rfl, fun _ _ _ _ _ => rfl⟩
